import Mathlib

/-!
Shallow embedding of `src/ArrayRef.h` (namespace `cxx`): a non-owning view
`array_ref<T>` over a contiguous run of elements, and the debug-checked
random-access iterator `array_iterator<PointerT>` it produces.

Modelling choices:
* A pointer is an abstract address: `Ptr := Option Int`, with `none` playing
  the role of `nullptr` and `some a` the address `a`.  Element identity is
  identified with the element's address (the code only ever returns
  `ptr_[pos_]`, i.e. the lvalue at address `ptr_ + pos_`).
* `difference_type` (`std::ptrdiff_t`) is modelled as `Int`.
* A debug `assert(c)` is modelled by returning `Option`: an operation whose
  assertion fires yields `none`; otherwise `some` of the C++ result.
* The compile-time guard `is_array_convertible<From, To> =
  std::is_convertible<From (*)[], To (*)[]>` is modelled over a small
  universe of cv-qualified element types; a constructor whose `enable_if`
  guard fails (it does not participate in overload resolution) is modelled
  as returning `none`.
-/

namespace cxx

/-- A C++ pointer value: `none` is `nullptr`, `some a` is the address `a`. -/
abbrev Ptr := Option Int

/-- Pointer arithmetic `p + n`.  In every state reachable through the
asserted constructors, `none` is only ever offset by `0`. -/
def ptrAdd : Ptr → Int → Ptr
  | some a, n => some (a + n)
  | none, _ => none

/-- A cv-qualified C++ element type: an identity for the underlying
(cv-unqualified) type, plus its top-level `const` / `volatile` qualifiers.
Distinct `base` values stand for distinct underlying types (in particular, a
derived class and its base class have distinct `base` values: there is no
array covariance). -/
structure CvType where
  base : Nat
  isConst : Bool
  isVolatile : Bool
deriving DecidableEq, Repr

/-- Modelled from the C++ language rule used by `ArrayRef.h` line 13:
`std::is_convertible<From (*)[], To (*)[]>` holds exactly for the
qualification conversion, i.e. when `To` and `From` have the same underlying
type and `To` carries at least the cv-qualifiers of `From`.  Array-to-array
pointer conversion admits no derived-to-base step and no other conversion. -/
def is_convertible_arrayPtr (From To : CvType) : Bool :=
  From.base == To.base
    && (!From.isConst || To.isConst)
    && (!From.isVolatile || To.isVolatile)

/-- `ArrayRef.h` lines 12-13:
`using is_array_convertible = std::is_convertible<From (*)[], To (*)[]>`. -/
def is_array_convertible (From To : CvType) : Bool :=
  is_convertible_arrayPtr From To

/-- `array_iterator` (lines 19-188): a pointer to element 0 of the
originating sequence, the current position, and the sequence length kept for
debug checking. -/
structure array_iterator where
  ptr_ : Ptr
  pos_ : Int
  size_ : Int
deriving DecidableEq, Repr

namespace array_iterator

/-- The (pointer, size, pos) constructor, lines 57-65.  The three `assert`s
are the `Option` guard. -/
def mk3 (ptr : Ptr) (size : Int) (pos : Int := 0) : Option array_iterator :=
  if ((ptr = none ∧ size = 0) ∨ (ptr ≠ none ∧ 0 ≤ size)) ∧ 0 ≤ pos ∧ pos ≤ size then
    some ⟨ptr, pos, size⟩
  else
    none

/-- The converting constructor, lines 44-55: admissible exactly when
`is_array_convertible<other element type, element type>` holds; otherwise it
does not participate in overload resolution (modelled as `none`).  `U` is
the source iterator's element type, `T` the destination's. -/
def convert (U T : CvType) (it : array_iterator) : Option array_iterator :=
  if is_array_convertible U T then some ⟨it.ptr_, it.pos_, it.size_⟩ else none

/-- `ptr()`, lines 67-69: `ptr_ + pos_`. -/
def ptr (it : array_iterator) : Ptr :=
  ptrAdd it.ptr_ it.pos_

/-- `operator*`, lines 71-75: the element (address) at `ptr_ + pos_`. -/
def deref (it : array_iterator) : Option Int :=
  match it.ptr_ with
  | none => none
  | some a => if it.pos_ < it.size_ then some (a + it.pos_) else none

/-- Pre-increment `operator++`, lines 83-87. -/
def inc (it : array_iterator) : Option array_iterator :=
  if it.pos_ < it.size_ then some { it with pos_ := it.pos_ + 1 } else none

/-- Pre-decrement `operator--`, lines 95-99. -/
def dec (it : array_iterator) : Option array_iterator :=
  if 0 < it.pos_ then some { it with pos_ := it.pos_ - 1 } else none

/-- `operator+=` / `operator+`, lines 107-118: move by a signed offset. -/
def add (it : array_iterator) (n : Int) : Option array_iterator :=
  if 0 ≤ it.pos_ + n ∧ it.pos_ + n ≤ it.size_ then
    some { it with pos_ := it.pos_ + n }
  else
    none

/-- `operator-=` / `operator-` with an integer, lines 124-135. -/
def sub (it : array_iterator) (n : Int) : Option array_iterator :=
  if 0 ≤ it.pos_ - n ∧ it.pos_ - n ≤ it.size_ then
    some { it with pos_ := it.pos_ - n }
  else
    none

/-- Iterator difference `operator-(array_iterator)`, lines 137-140. -/
def diff (it rhs : array_iterator) : Option Int :=
  if it.ptr_ = rhs.ptr_ then some (it.pos_ - rhs.pos_) else none

/-- `operator[]`, lines 142-147: the element (address) at `ptr_ + pos_ + n`. -/
def index (it : array_iterator) (n : Int) : Option Int :=
  match it.ptr_ with
  | none => none
  | some a =>
    if 0 ≤ it.pos_ + n ∧ it.pos_ + n < it.size_ then some (a + (it.pos_ + n)) else none

/-- `operator==`, lines 149-152. -/
def beq (lhs rhs : array_iterator) : Option Bool :=
  if lhs.ptr_ = rhs.ptr_ then some (decide (lhs.pos_ = rhs.pos_)) else none

/-- `operator<`, lines 158-161. -/
def lt (lhs rhs : array_iterator) : Option Bool :=
  if lhs.ptr_ = rhs.ptr_ then some (decide (lhs.pos_ < rhs.pos_)) else none

/-- The state invariant maintained by the asserting constructor: exactly the
conjunction asserted on lines 62-64. -/
def Valid (it : array_iterator) : Prop :=
  ((it.ptr_ = none ∧ it.size_ = 0) ∨ (it.ptr_ ≠ none ∧ 0 ≤ it.size_))
    ∧ 0 ≤ it.pos_ ∧ it.pos_ ≤ it.size_

instance (it : array_iterator) : Decidable it.Valid := by
  unfold Valid; infer_instance

end array_iterator

/-- `array_ref` (lines 194-382): a (pointer, length) pair. -/
structure array_ref where
  data_ : Ptr
  size_ : Int
deriving DecidableEq, Repr

namespace array_ref

/-- `Min`, lines 209-211: `y < x ? y : x`. -/
def Min (x y : Int) : Int :=
  if y < x then y else x

/-- The iterator-pair constructor, lines 225-230: `data_ = first.ptr()`,
`size_ = last - first` (which asserts the two share a base), then the
null-iff-empty-or-nonneg assert. -/
def ofIters (first last : array_iterator) : Option array_ref := do
  let size ← last.diff first
  let data := first.ptr
  if (data = none ∧ size = 0) ∨ (data ≠ none ∧ 0 ≤ size) then
    some ⟨data, size⟩
  else
    none

/-- `data()`, lines 281-283. -/
def data (v : array_ref) : Ptr :=
  v.data_

/-- `operator[]`, lines 285-289: the element (address) at `data_ + index`. -/
def get (v : array_ref) (index : Int) : Option Int :=
  if 0 ≤ index ∧ index < v.size_ then
    match v.data_ with
    | some a => some (a + index)
    | none => none
  else
    none

/-- `size()`, lines 291-293. -/
def size (v : array_ref) : Int :=
  v.size_

/-- `empty()`, lines 299-301. -/
def empty (v : array_ref) : Bool :=
  v.size_ == 0

/-- `begin()`, lines 303-305: `iterator{data_, size_, 0}` through the
asserting iterator constructor. -/
def begin (v : array_ref) : Option array_iterator :=
  array_iterator.mk3 v.data_ v.size_ 0

/-- `end()`, lines 307-309: `iterator{data_, size_, size_}`. -/
def end_ (v : array_ref) : Option array_iterator :=
  array_iterator.mk3 v.data_ v.size_ v.size_

/-- `take_front`, lines 312-315: `n = Min(n, size()); return {begin(), begin() + n}`. -/
def take_front (v : array_ref) (n : Int := 1) : Option array_ref := do
  let n := Min n v.size
  let b ← v.begin
  let e ← b.add n
  ofIters b e

/-- `take_back`, lines 318-321: `n = Min(n, size()); return {end() - n, end()}`. -/
def take_back (v : array_ref) (n : Int := 1) : Option array_ref := do
  let n := Min n v.size
  let e ← v.end_
  let f ← e.sub n
  ofIters f e

/-- `drop_front`, lines 324-327: `n = Min(n, size()); return {begin() + n, end()}`. -/
def drop_front (v : array_ref) (n : Int := 1) : Option array_ref := do
  let n := Min n v.size
  let b ← v.begin
  let f ← b.add n
  let e ← v.end_
  ofIters f e

/-- `drop_back`, lines 330-333: `n = Min(n, size()); return {begin(), end() - n}`. -/
def drop_back (v : array_ref) (n : Int := 1) : Option array_ref := do
  let n := Min n v.size
  let b ← v.begin
  let e ← v.end_
  let f ← e.sub n
  ofIters b f

/-- `subarray(first, last)`, lines 336-338: `take_front(last).drop_front(first)`. -/
def subarray (v : array_ref) (first last : Int) : Option array_ref := do
  let t ← v.take_front last
  t.drop_front first

/-- `slice(first, n)`, lines 346-348: `drop_front(first).take_front(n)`. -/
def slice (v : array_ref) (first n : Int) : Option array_ref := do
  let d ← v.drop_front first
  d.take_front n

/-- `operator==`, lines 356-358: identical data address and identical size. -/
def beq (lhs rhs : array_ref) : Bool :=
  lhs.data == rhs.data && lhs.size == rhs.size

/-- Cross-element-type view conversion.  A view of element type `T` is
constructed from a view of element type `U` through the container
constructor on lines 252-264, whose guard is
`is_array_convertible<remove_pointer_t<decltype(rhs.data())>, element_type>`,
i.e. `is_array_convertible<U, T>`; when the guard fails the constructor does
not participate in overload resolution (modelled as `none`). -/
def convert (U T : CvType) (v : array_ref) : Option array_ref :=
  if is_array_convertible U T then some ⟨v.data_, v.size_⟩ else none

/-- The state invariant asserted by every `array_ref` constructor
(lines 222, 229): `(data_ == nullptr && size_ == 0) || (data_ != nullptr &&
size_ >= 0)`. -/
def Valid (v : array_ref) : Prop :=
  (v.data_ = none ∧ v.size_ = 0) ∨ (v.data_ ≠ none ∧ 0 ≤ v.size_)

instance (v : array_ref) : Decidable v.Valid := by
  unfold Valid; infer_instance

end array_ref

/-- `w` is a sub-range of `v`: `w`'s half-open range `[data, data + size)` is
contained in `v`'s — `w.data = v.data + k` for some offset `0 ≤ k` with
`k + w.size ≤ v.size` and `0 ≤ w.size`. -/
def subrange_of (w v : array_ref) : Prop :=
  0 ≤ w.size_ ∧ ∃ k, 0 ≤ k ∧ w.data_ = ptrAdd v.data_ k ∧ k + w.size_ ≤ v.size_

/-! Helper lemmas: closed forms of the four sub-range primitives on views
satisfying the constructor invariant, split on whether `data_` is null. -/

theorem array_ref.Min_bounds (x y : Int) (hx : 0 ≤ x) (hy : 0 ≤ y) :
    0 ≤ array_ref.Min x y ∧ array_ref.Min x y ≤ y ∧ array_ref.Min x y ≤ x := by
  unfold array_ref.Min; split_ifs <;> omega

theorem array_ref.take_front_some (a s n : Int) (hs : 0 ≤ s) (hn : 0 ≤ n) :
    array_ref.take_front ⟨some a, s⟩ n = some ⟨some a, array_ref.Min n s⟩ := by
  simp only [array_ref.take_front, array_ref.begin, array_ref.size, array_iterator.mk3,
    array_iterator.add, array_ref.ofIters, array_iterator.diff, array_iterator.ptr, ptrAdd,
    array_ref.Min]
  split_ifs <;> simp_all
  all_goals omega

theorem array_ref.drop_front_some (a s n : Int) (hs : 0 ≤ s) (hn : 0 ≤ n) :
    array_ref.drop_front ⟨some a, s⟩ n
      = some ⟨some (a + array_ref.Min n s), s - array_ref.Min n s⟩ := by
  simp only [array_ref.drop_front, array_ref.begin, array_ref.end_, array_ref.size,
    array_iterator.mk3, array_iterator.add, array_ref.ofIters, array_iterator.diff,
    array_iterator.ptr, ptrAdd, array_ref.Min]
  split_ifs <;> simp_all
  all_goals omega

theorem array_ref.take_back_some (a s n : Int) (hs : 0 ≤ s) (hn : 0 ≤ n) :
    array_ref.take_back ⟨some a, s⟩ n
      = some ⟨some (a + (s - array_ref.Min n s)), array_ref.Min n s⟩ := by
  simp only [array_ref.take_back, array_ref.end_, array_ref.size, array_iterator.mk3,
    array_iterator.sub, array_ref.ofIters, array_iterator.diff, array_iterator.ptr, ptrAdd,
    array_ref.Min]
  split_ifs <;> simp_all
  all_goals omega

theorem array_ref.drop_back_some (a s n : Int) (hs : 0 ≤ s) (hn : 0 ≤ n) :
    array_ref.drop_back ⟨some a, s⟩ n = some ⟨some a, s - array_ref.Min n s⟩ := by
  simp only [array_ref.drop_back, array_ref.begin, array_ref.end_, array_ref.size,
    array_iterator.mk3, array_iterator.sub, array_ref.ofIters, array_iterator.diff,
    array_iterator.ptr, ptrAdd, array_ref.Min]
  split_ifs <;> simp_all
  all_goals omega

theorem array_ref.take_front_none (n : Int) (hn : 0 ≤ n) :
    array_ref.take_front ⟨none, 0⟩ n = some ⟨none, 0⟩ := by
  simp only [array_ref.take_front, array_ref.begin, array_ref.size, array_iterator.mk3,
    array_iterator.add, array_ref.ofIters, array_iterator.diff, array_iterator.ptr, ptrAdd,
    array_ref.Min]
  split_ifs <;> simp_all
  all_goals omega

theorem array_ref.drop_front_none (n : Int) (hn : 0 ≤ n) :
    array_ref.drop_front ⟨none, 0⟩ n = some ⟨none, 0⟩ := by
  simp only [array_ref.drop_front, array_ref.begin, array_ref.end_, array_ref.size,
    array_iterator.mk3, array_iterator.add, array_ref.ofIters, array_iterator.diff,
    array_iterator.ptr, ptrAdd, array_ref.Min]
  split_ifs <;> simp_all
  all_goals omega

theorem array_ref.take_back_none (n : Int) (hn : 0 ≤ n) :
    array_ref.take_back ⟨none, 0⟩ n = some ⟨none, 0⟩ := by
  simp only [array_ref.take_back, array_ref.end_, array_ref.size, array_iterator.mk3,
    array_iterator.sub, array_ref.ofIters, array_iterator.diff, array_iterator.ptr, ptrAdd,
    array_ref.Min]
  split_ifs <;> simp_all
  all_goals omega

theorem array_ref.drop_back_none (n : Int) (hn : 0 ≤ n) :
    array_ref.drop_back ⟨none, 0⟩ n = some ⟨none, 0⟩ := by
  simp only [array_ref.drop_back, array_ref.begin, array_ref.end_, array_ref.size,
    array_iterator.mk3, array_iterator.sub, array_ref.ofIters, array_iterator.diff,
    array_iterator.ptr, ptrAdd, array_ref.Min]
  split_ifs <;> simp_all
  all_goals omega

/-- C2: for every view `v` with `v.size() >= 0` and all `first >= 0`, `n >= 0`,
`slice(first, n)` equals `subarray(first, first + n)` whenever
`first + n <= v.size()`; moreover (by definition, lines 336-338 and 346-348)
`slice(first, n)` is `drop_front(first).take_front(n)` while
`subarray(first, last)` is `take_front(last).drop_front(first)`, so the two
clamp in opposite orders. -/
theorem slice_subarray_agree (v : array_ref) (first n : Int)
    (hs : 0 ≤ v.size) (hf : 0 ≤ first) (hn : 0 ≤ n) (hfn : first + n ≤ v.size) :
    v.slice first n = v.subarray first (first + n) ∧
    (∀ (w : array_ref) (f m : Int),
      w.slice f m = (w.drop_front f).bind (fun d => d.take_front m)) ∧
    (∀ (w : array_ref) (f l : Int),
      w.subarray f l = (w.take_front l).bind (fun t => t.drop_front f)) := by
  refine ⟨?_, fun w f m => rfl, fun w f l => rfl⟩
  obtain ⟨d, s⟩ := v
  simp only [array_ref.size] at hs hfn
  match d with
  | none =>
    by_cases hs0 : s = 0
    · subst hs0
      have hf0 : first = 0 := by omega
      have hn0 : n = 0 := by omega
      subst hf0; subst hn0
      simp [array_ref.slice, array_ref.subarray, Option.bind_eq_bind',
        array_ref.drop_front_none, array_ref.take_front_none]
    · simp only [array_ref.slice, array_ref.subarray, array_ref.drop_front,
        array_ref.take_front, array_ref.begin, array_iterator.mk3, array_ref.size]
      split_ifs <;> simp_all
  | some a =>
    have h1 : array_ref.Min first s = first := by
      unfold array_ref.Min; split_ifs <;> omega
    have h2 : array_ref.Min (first + n) s = first + n := by
      unfold array_ref.Min; split_ifs <;> omega
    simp only [array_ref.slice, array_ref.subarray]
    rw [array_ref.drop_front_some a s first hs hf,
      array_ref.take_front_some a s (first + n) hs (by omega)]
    simp only [Option.bind_eq_bind', Option.some_bind]
    rw [h1, h2]
    rw [array_ref.take_front_some (a + first) (s - first) n (by omega) hn,
      array_ref.drop_front_some a (first + n) first (by omega) hf]
    have h3 : array_ref.Min n (s - first) = n := by
      unfold array_ref.Min; split_ifs <;> omega
    have h4 : array_ref.Min first (first + n) = first := by
      unfold array_ref.Min; split_ifs <;> omega
    rw [h3, h4]
    simp only [Option.some.injEq, array_ref.mk.injEq]
    exact ⟨trivial, by omega⟩

/-- C3: for every view `v` and all `first >= 0`, `last >= 0`:
`subarray(first, last)` with `last > v.size()` yields the same result as
`subarray(first, v.size())`, and when `first >= last` after clamping the
result is an empty (zero-size) view, not an assertion failure. -/
theorem subarray_clamps (v : array_ref) (first last : Int)
    (hv : v.Valid) (hf : 0 ≤ first) (hl : 0 ≤ last) :
    (v.size < last → v.subarray first last = v.subarray first v.size) ∧
    (array_ref.Min last v.size ≤ first →
      ∃ w, v.subarray first last = some w ∧ w.size = 0) := by
  obtain ⟨d, s⟩ := v
  simp only [array_ref.size, array_ref.Valid] at *
  match d with
  | none =>
    have hs0 : s = 0 := by
      rcases hv with ⟨_, h⟩ | ⟨h, _⟩
      · exact h
      · exact absurd rfl h
    subst hs0
    refine ⟨fun hlast => ?_, fun hfirst => ?_⟩
    · simp [array_ref.subarray, Option.bind_eq_bind',
        array_ref.take_front_none last hl, array_ref.take_front_none 0 le_rfl,
        array_ref.drop_front_none first hf]
    refine ⟨⟨none, 0⟩, ?_, rfl⟩
    simp [array_ref.subarray, Option.bind_eq_bind',
      array_ref.take_front_none last hl, array_ref.drop_front_none first hf]
  | some a =>
    have hs : 0 ≤ s := by
      rcases hv with ⟨h, _⟩ | ⟨_, h⟩
      · exact absurd h (by simp)
      · exact h
    refine ⟨fun hlast => ?_, fun hfirst => ?_⟩
    · simp only [array_ref.subarray]
      rw [array_ref.take_front_some a s last hs hl,
        array_ref.take_front_some a s s hs hs]
      have h1 : array_ref.Min last s = s := by
        unfold array_ref.Min; split_ifs <;> omega
      have h2 : array_ref.Min s s = s := by
        unfold array_ref.Min; split_ifs <;> omega
      rw [h1, h2]
    · have hl' : 0 ≤ array_ref.Min last s := by
        unfold array_ref.Min; split_ifs <;> omega
      refine ⟨⟨some (a + array_ref.Min last s), 0⟩, ?_, rfl⟩
      simp only [array_ref.subarray]
      rw [array_ref.take_front_some a s last hs hl]
      simp only [Option.bind_eq_bind', Option.some_bind]
      rw [array_ref.drop_front_some a (array_ref.Min last s) first hl' hf]
      have h1 : array_ref.Min first (array_ref.Min last s) = array_ref.Min last s := by
        unfold array_ref.Min at hfirst ⊢; split_ifs <;> omega
      rw [h1]
      simp only [Option.some.injEq, array_ref.mk.injEq]
      exact ⟨trivial, by omega⟩

/-- C4: for every view `v` and `0 <= k <= n <= v.size()`:
`v.take_front(n).drop_front(k)` is a view of length `n - k` whose data
pointer is `v.data() + k`. -/
theorem take_then_drop (v : array_ref) (k n : Int)
    (hv : v.Valid) (hk : 0 ≤ k) (hkn : k ≤ n) (hn : n ≤ v.size) :
    ∃ w, (v.take_front n).bind (fun t => t.drop_front k) = some w ∧
      w.size = n - k ∧ w.data = ptrAdd v.data k := by
  obtain ⟨d, s⟩ := v
  simp only [array_ref.size, array_ref.Valid, array_ref.data] at *
  match d with
  | none =>
    have hs0 : s = 0 := by
      rcases hv with ⟨_, h⟩ | ⟨h, _⟩
      · exact h
      · exact absurd rfl h
    subst hs0
    have hk0 : k = 0 := by omega
    have hn0 : n = 0 := by omega
    subst hk0; subst hn0
    refine ⟨⟨none, 0⟩, ?_, rfl, rfl⟩
    simp [array_ref.take_front_none, array_ref.drop_front_none]
  | some a =>
    have hs : 0 ≤ s := by
      rcases hv with ⟨h, _⟩ | ⟨_, h⟩
      · exact absurd h (by simp)
      · exact h
    refine ⟨⟨some (a + k), n - k⟩, ?_, rfl, rfl⟩
    rw [array_ref.take_front_some a s n hs (by omega)]
    simp only [Option.some_bind]
    have h1 : array_ref.Min n s = n := by
      unfold array_ref.Min; split_ifs <;> omega
    rw [h1, array_ref.drop_front_some a n k (by omega) hk]
    have h2 : array_ref.Min k n = k := by
      unfold array_ref.Min; split_ifs <;> omega
    rw [h2]

/-- Witness for C2 at `v = (100, 10)`, `first = 3`, `n = 4`. -/
theorem slice_subarray_agree_witness :
    (⟨some 100, 10⟩ : array_ref).slice 3 4
      = (⟨some 100, 10⟩ : array_ref).subarray 3 (3 + 4) ∧
    (∀ (w : array_ref) (f m : Int),
      w.slice f m = (w.drop_front f).bind (fun d => d.take_front m)) ∧
    (∀ (w : array_ref) (f l : Int),
      w.subarray f l = (w.take_front l).bind (fun t => t.drop_front f)) :=
  slice_subarray_agree ⟨some 100, 10⟩ 3 4 (by decide) (by decide) (by decide) (by decide)

/-- Witness for C3 at `v = (100, 5)`, `first = 7`, `last = 20`. -/
theorem subarray_clamps_witness :
    ((⟨some 100, 5⟩ : array_ref).size < 20 →
      (⟨some 100, 5⟩ : array_ref).subarray 7 20
        = (⟨some 100, 5⟩ : array_ref).subarray 7 (⟨some 100, 5⟩ : array_ref).size) ∧
    (array_ref.Min 20 (⟨some 100, 5⟩ : array_ref).size ≤ 7 →
      ∃ w, (⟨some 100, 5⟩ : array_ref).subarray 7 20 = some w ∧ w.size = 0) :=
  subarray_clamps ⟨some 100, 5⟩ 7 20 (by decide) (by decide) (by decide)

/-- Witness for C4 at `v = (100, 10)`, `k = 2`, `n = 6`. -/
theorem take_then_drop_witness :
    ∃ w, ((⟨some 100, 10⟩ : array_ref).take_front 6).bind (fun t => t.drop_front 2)
        = some w ∧
      w.size = 6 - 2 ∧ w.data = ptrAdd (⟨some 100, 10⟩ : array_ref).data 2 :=
  take_then_drop ⟨some 100, 10⟩ 2 6 (by decide) (by decide) (by decide) (by decide)

/-- C5: for every validly constructed view `v`, `end() - begin() == size()`,
and for every `0 <= i < size()`, `v[i]`, `*(v.begin() + i)` and
`v.begin()[i]` all denote the element at address `v.data() + i`. -/
theorem begin_end_index_agree (v : array_ref) (hv : v.Valid) :
    (∃ b e, v.begin = some b ∧ v.end_ = some e ∧ e.diff b = some v.size) ∧
    (∀ i : Int, 0 ≤ i → i < v.size →
      v.get i = ptrAdd v.data i ∧
      (v.begin.bind fun b => (b.add i).bind array_iterator.deref) = v.get i ∧
      (v.begin.bind fun b => b.index i) = v.get i) := by
  obtain ⟨d, s⟩ := v
  simp only [array_ref.Valid] at hv
  match d with
  | none =>
    have hs0 : s = 0 := by
      rcases hv with ⟨_, h⟩ | ⟨h, _⟩
      · exact h
      · exact absurd rfl h
    subst hs0
    refine ⟨⟨⟨none, 0, 0⟩, ⟨none, 0, 0⟩, by decide, by decide, by decide⟩, ?_⟩
    intro i h1 h2
    simp only [array_ref.size] at h2
    omega
  | some a =>
    have hs : 0 ≤ s := by
      rcases hv with ⟨h, _⟩ | ⟨_, h⟩
      · exact absurd h (by simp)
      · exact h
    refine ⟨⟨⟨some a, 0, s⟩, ⟨some a, s, s⟩, ?_, ?_, ?_⟩, ?_⟩
    · simp [array_ref.begin, array_iterator.mk3, hs]
    · simp [array_ref.end_, array_iterator.mk3, hs]
    · simp [array_iterator.diff, array_ref.size]
    · intro i h1 h2
      simp only [array_ref.size] at h2
      refine ⟨?_, ?_, ?_⟩
      · simp [array_ref.get, ptrAdd, array_ref.data, h1, h2]
      · simp [array_ref.begin, array_iterator.mk3, hs, array_iterator.add,
          array_iterator.deref, array_ref.get, Option.bind_eq_bind', h1, h2]
        split_ifs <;> simp_all <;> omega
      · simp [array_ref.begin, array_iterator.mk3, hs, array_iterator.index,
          array_ref.get, Option.bind_eq_bind', h1, h2]

/-- C6: for iterators `a`, `b` over the same base pointer, `a < b` iff
`a`'s position is less than `b`'s; for `n` with `a + n` in range,
`(a + n) - a == n`; and `++(--it) == it` for a valid iterator not at the
begin boundary. -/
theorem iterator_order_diff_incdec (a b it : array_iterator) (n : Int)
    (hab : a.ptr_ = b.ptr_) (hn1 : 0 ≤ a.pos_ + n) (hn2 : a.pos_ + n ≤ a.size_)
    (hit : it.Valid) (hpos : 0 < it.pos_) :
    (a.lt b = some true ↔ a.pos_ < b.pos_) ∧
    (∃ c, a.add n = some c ∧ c.diff a = some n) ∧
    (it.dec.bind array_iterator.inc = some it) := by
  refine ⟨?_, ?_, ?_⟩
  · simp [array_iterator.lt, hab]
  · refine ⟨⟨a.ptr_, a.pos_ + n, a.size_⟩, ?_, ?_⟩
    · simp [array_iterator.add, hn1, hn2]
    · simp [array_iterator.diff]
  · obtain ⟨p, q, r⟩ := it
    obtain ⟨-, h1, h2⟩ := hit
    simp only at h1 h2 hpos
    simp_all [array_iterator.dec, array_iterator.inc, Option.bind_eq_bind',
      array_iterator.mk.injEq]
    omega

/-- C7: two views compare equal iff identical data address and identical
size (pointer-and-length identity, the element contents never enter);
consequently any view `w` obtained by `subarray` from `v` is unequal to `v`
whenever their sizes differ. -/
theorem view_equality_is_identity (v1 v2 v w : array_ref) (first last : Int)
    (hsub : v.subarray first last = some w) (hne : w.size ≠ v.size) :
    (array_ref.beq v1 v2 = true ↔ (v1.data = v2.data ∧ v1.size = v2.size)) ∧
    array_ref.beq v w = false := by
  constructor
  · simp [array_ref.beq, Bool.and_eq_true]
  · simp only [array_ref.beq, Bool.and_eq_false_iff]
    right
    simpa using fun h => hne h.symm

/-- Witness for C5 at `v = (100, 10)`. -/
theorem begin_end_index_agree_witness :
    (∃ b e, (⟨some 100, 10⟩ : array_ref).begin = some b ∧
      (⟨some 100, 10⟩ : array_ref).end_ = some e ∧
      e.diff b = some (⟨some 100, 10⟩ : array_ref).size) ∧
    (∀ i : Int, 0 ≤ i → i < (⟨some 100, 10⟩ : array_ref).size →
      (⟨some 100, 10⟩ : array_ref).get i = ptrAdd (⟨some 100, 10⟩ : array_ref).data i ∧
      ((⟨some 100, 10⟩ : array_ref).begin.bind
          fun b => (b.add i).bind array_iterator.deref)
        = (⟨some 100, 10⟩ : array_ref).get i ∧
      ((⟨some 100, 10⟩ : array_ref).begin.bind fun b => b.index i)
        = (⟨some 100, 10⟩ : array_ref).get i) :=
  begin_end_index_agree ⟨some 100, 10⟩ (by decide)

/-- Witness for C6 at `a = (100, 1, 5)`, `b = (100, 3, 5)`, `n = 2`,
`it = (100, 2, 5)`. -/
theorem iterator_order_diff_incdec_witness :
    ((⟨some 100, 1, 5⟩ : array_iterator).lt ⟨some 100, 3, 5⟩ = some true ↔
      (⟨some 100, 1, 5⟩ : array_iterator).pos_ < (⟨some 100, 3, 5⟩ : array_iterator).pos_) ∧
    (∃ c, (⟨some 100, 1, 5⟩ : array_iterator).add 2 = some c ∧
      c.diff ⟨some 100, 1, 5⟩ = some 2) ∧
    ((⟨some 100, 2, 5⟩ : array_iterator).dec.bind array_iterator.inc
      = some ⟨some 100, 2, 5⟩) :=
  iterator_order_diff_incdec ⟨some 100, 1, 5⟩ ⟨some 100, 3, 5⟩ ⟨some 100, 2, 5⟩ 2
    rfl (by decide) (by decide) (by decide) (by decide)

/-- Witness for C7 at `v1 = v2 = v = (100, 10)`, `w = v.subarray(2, 5) = (102, 3)`. -/
theorem view_equality_is_identity_witness :
    (array_ref.beq ⟨some 100, 10⟩ ⟨some 100, 10⟩ = true ↔
      ((⟨some 100, 10⟩ : array_ref).data = (⟨some 100, 10⟩ : array_ref).data ∧
       (⟨some 100, 10⟩ : array_ref).size = (⟨some 100, 10⟩ : array_ref).size)) ∧
    array_ref.beq ⟨some 100, 10⟩ ⟨some 102, 3⟩ = false :=
  view_equality_is_identity ⟨some 100, 10⟩ ⟨some 100, 10⟩ ⟨some 100, 10⟩ ⟨some 102, 3⟩
    2 5 (by decide) (by decide)

/-- C1: cross-element-type conversion of iterators and views is governed by
array convertibility: the converting constructors participate in overload
resolution exactly when `is_array_convertible U T` holds; in particular
mutable-to-const converts, const-to-mutable is rejected, and any two
distinct underlying types (derived/base or unrelated) are rejected. -/
theorem conversion_needs_array_convertible
    (U T : CvType) (it : array_iterator) (v : array_ref)
    (b b2 : Nat) (c c2 vv vv2 : Bool) (hbb : b ≠ b2) :
    ((array_iterator.convert U T it).isSome = is_array_convertible U T) ∧
    ((array_ref.convert U T v).isSome = is_array_convertible U T) ∧
    (is_array_convertible ⟨b, false, vv⟩ ⟨b, true, vv⟩ = true) ∧
    (is_array_convertible ⟨b, true, vv⟩ ⟨b, false, vv⟩ = false) ∧
    (is_array_convertible ⟨b, c, vv⟩ ⟨b2, c2, vv2⟩ = false) := by
  refine ⟨?_, ?_, ?_, ?_, ?_⟩
  · by_cases h : is_array_convertible U T <;> simp [array_iterator.convert, h]
  · by_cases h : is_array_convertible U T <;> simp [array_ref.convert, h]
  · simp [is_array_convertible, is_convertible_arrayPtr]
  · simp [is_array_convertible, is_convertible_arrayPtr]
  · simp [is_array_convertible, is_convertible_arrayPtr, hbb]

/-- C8 counterexample: constructing an iterator from a non-null pointer with
length 0 (and position 0) violates the claimed precondition
"pointer is null iff length == 0", yet the constructor's assertion
(line 62) accepts it: `(ptr != nullptr && size >= 0)` holds at
`(some 1, 0, 0)`. -/
theorem iterator_ctor_accepts_nonnull_empty :
    (array_iterator.mk3 (some 1) 0 0).isSome = true ∧
    ¬(((some 1 : Ptr) = none) ↔ (0 : Int) = 0) := by
  decide

/-- C8 (amended): constructing an iterator from (pointer, length, position)
succeeds exactly when position is in `[0, length]`, `length >= 0`, and the
pointer being null implies `length == 0`; a null pointer with nonzero
length, or a position out of range, triggers the assertion — but a non-null
pointer with `length == 0` is accepted. -/
theorem iterator_ctor_precondition (p : Ptr) (size pos : Int) :
    (array_iterator.mk3 p size pos).isSome = true ↔
      ((p = none → size = 0) ∧ 0 ≤ size ∧ 0 ≤ pos ∧ pos ≤ size) := by
  cases p <;> simp [array_iterator.mk3] <;>
    first
    | omega
    | (split_ifs <;> simp_all <;> omega)

/-- C9: every sub-range operation (`take_front`, `take_back`, `drop_front`,
`drop_back`, `subarray`, `slice`) with non-negative arguments, applied to a
view satisfying the constructor invariant, returns a view whose half-open
range is contained in the original's. -/
theorem subrange_ops_contained (v : array_ref) (n first last : Int)
    (hv : v.Valid) (hn : 0 ≤ n) (hf : 0 ≤ first) (hl : 0 ≤ last) :
    (∃ w, v.take_front n = some w ∧ subrange_of w v) ∧
    (∃ w, v.take_back n = some w ∧ subrange_of w v) ∧
    (∃ w, v.drop_front n = some w ∧ subrange_of w v) ∧
    (∃ w, v.drop_back n = some w ∧ subrange_of w v) ∧
    (∃ w, v.subarray first last = some w ∧ subrange_of w v) ∧
    (∃ w, v.slice first n = some w ∧ subrange_of w v) := by
  obtain ⟨d, s⟩ := v
  simp only [array_ref.Valid] at hv
  match d with
  | none =>
    have hs0 : s = 0 := by
      rcases hv with ⟨_, h⟩ | ⟨h, _⟩
      · exact h
      · exact absurd rfl h
    subst hs0
    have hsub : subrange_of ⟨none, 0⟩ ⟨none, 0⟩ :=
      ⟨le_rfl, 0, le_rfl, rfl, by omega⟩
    refine ⟨⟨⟨none, 0⟩, array_ref.take_front_none n hn, hsub⟩,
      ⟨⟨none, 0⟩, array_ref.take_back_none n hn, hsub⟩,
      ⟨⟨none, 0⟩, array_ref.drop_front_none n hn, hsub⟩,
      ⟨⟨none, 0⟩, array_ref.drop_back_none n hn, hsub⟩,
      ⟨⟨none, 0⟩, ?_, hsub⟩, ⟨⟨none, 0⟩, ?_, hsub⟩⟩
    · simp [array_ref.subarray, Option.bind_eq_bind',
        array_ref.take_front_none last hl, array_ref.drop_front_none first hf]
    · simp [array_ref.slice, Option.bind_eq_bind',
        array_ref.drop_front_none first hf, array_ref.take_front_none n hn]
  | some a =>
    have hs : 0 ≤ s := by
      rcases hv with ⟨h, _⟩ | ⟨_, h⟩
      · exact absurd h (by simp)
      · exact h
    obtain ⟨hn0, hns, -⟩ := array_ref.Min_bounds n s hn hs
    obtain ⟨hl0, hls, -⟩ := array_ref.Min_bounds last s hl hs
    obtain ⟨hf0, hfl, -⟩ := array_ref.Min_bounds first (array_ref.Min last s) hf hl0
    obtain ⟨hfs0, hfs, -⟩ := array_ref.Min_bounds first s hf hs
    obtain ⟨hn20, hn2s, -⟩ :=
      array_ref.Min_bounds n (s - array_ref.Min first s) hn (by omega)
    refine ⟨⟨_, array_ref.take_front_some a s n hs hn, ?_⟩,
      ⟨_, array_ref.take_back_some a s n hs hn, ?_⟩,
      ⟨_, array_ref.drop_front_some a s n hs hn, ?_⟩,
      ⟨_, array_ref.drop_back_some a s n hs hn, ?_⟩,
      ⟨⟨some (a + array_ref.Min first (array_ref.Min last s)),
          array_ref.Min last s - array_ref.Min first (array_ref.Min last s)⟩, ?_, ?_⟩,
      ⟨⟨some (a + array_ref.Min first s),
          array_ref.Min n (s - array_ref.Min first s)⟩, ?_, ?_⟩⟩
    · refine ⟨?_, 0, le_rfl, ?_, ?_⟩ <;> first | omega | (simp [subrange_of, ptrAdd] <;> omega)
    · refine ⟨?_, s - array_ref.Min n s, ?_, ?_, ?_⟩ <;> first | omega | (simp [ptrAdd] <;> omega)
    · refine ⟨?_, array_ref.Min n s, ?_, ?_, ?_⟩ <;> first | omega | (simp [ptrAdd] <;> omega)
    · refine ⟨?_, 0, le_rfl, ?_, ?_⟩ <;> first | omega | (simp [ptrAdd] <;> omega)
    · simp only [array_ref.subarray]
      rw [array_ref.take_front_some a s last hs hl]
      simp only [Option.bind_eq_bind', Option.some_bind]
      rw [array_ref.drop_front_some a (array_ref.Min last s) first hl0 hf]
    · refine ⟨?_, array_ref.Min first (array_ref.Min last s), ?_, ?_, ?_⟩ <;>
        first | omega | (simp [ptrAdd] <;> omega)
    · simp only [array_ref.slice]
      rw [array_ref.drop_front_some a s first hs hf]
      simp only [Option.bind_eq_bind', Option.some_bind]
      rw [array_ref.take_front_some (a + array_ref.Min first s)
        (s - array_ref.Min first s) n (by omega) hn]
    · refine ⟨?_, array_ref.Min first s, ?_, ?_, ?_⟩ <;> first | omega | (simp [ptrAdd] <;> omega)

/-- C10: the clamping policy is one-sided — on a non-empty view, a negative
count `n < 0` is not clamped by `Min` (`Min(n, size) = n`), and the
negative offset reaches the iterator arithmetic whose debug assertion
fails (`none`), while every count `m >= 0` succeeds. -/
theorem negative_count_asserts (v : array_ref) (n m : Int)
    (hv : v.Valid) (hne : 0 < v.size) (hn : n < 0) (hm : 0 ≤ m) :
    array_ref.Min n v.size = n ∧
    v.take_front n = none ∧ v.take_back n = none ∧
    v.drop_front n = none ∧ v.drop_back n = none ∧
    (v.take_front m).isSome = true ∧ (v.take_back m).isSome = true ∧
    (v.drop_front m).isSome = true ∧ (v.drop_back m).isSome = true := by
  obtain ⟨d, s⟩ := v
  simp only [array_ref.Valid, array_ref.size] at hv hne
  match d with
  | none =>
    rcases hv with ⟨_, h⟩ | ⟨h, _⟩
    · omega
    · exact absurd rfl h
  | some a =>
    have hs : 0 ≤ s := by omega
    have hmin : array_ref.Min n s = n := by
      unfold array_ref.Min; split_ifs <;> omega
    refine ⟨hmin, ?_, ?_, ?_, ?_,
      by rw [array_ref.take_front_some a s m hs hm]; rfl,
      by rw [array_ref.take_back_some a s m hs hm]; rfl,
      by rw [array_ref.drop_front_some a s m hs hm]; rfl,
      by rw [array_ref.drop_back_some a s m hs hm]; rfl⟩
    · simp only [array_ref.take_front, array_ref.size, hmin, array_ref.begin,
        array_iterator.mk3, array_iterator.add, Option.bind_eq_bind']
      split_ifs <;> simp_all <;> omega
    · simp only [array_ref.take_back, array_ref.size, hmin, array_ref.end_,
        array_iterator.mk3, array_iterator.sub, Option.bind_eq_bind']
      split_ifs <;> simp_all <;> omega
    · simp only [array_ref.drop_front, array_ref.size, hmin, array_ref.begin,
        array_ref.end_, array_iterator.mk3, array_iterator.add, Option.bind_eq_bind']
      split_ifs <;> simp_all <;> omega
    · simp only [array_ref.drop_back, array_ref.size, hmin, array_ref.begin,
        array_ref.end_, array_iterator.mk3, array_iterator.sub, Option.bind_eq_bind']
      split_ifs <;> simp_all <;> omega

/-- Witness for C1 at `U = mutable type 0`, `T = const type 0`, distinct
bases `0` and `1`. -/
theorem conversion_needs_array_convertible_witness :
    ((array_iterator.convert ⟨0, false, false⟩ ⟨0, true, false⟩ ⟨some 100, 0, 5⟩).isSome
      = is_array_convertible ⟨0, false, false⟩ ⟨0, true, false⟩) ∧
    ((array_ref.convert ⟨0, false, false⟩ ⟨0, true, false⟩ ⟨some 100, 5⟩).isSome
      = is_array_convertible ⟨0, false, false⟩ ⟨0, true, false⟩) ∧
    (is_array_convertible ⟨0, false, false⟩ ⟨0, true, false⟩ = true) ∧
    (is_array_convertible ⟨0, true, false⟩ ⟨0, false, false⟩ = false) ∧
    (is_array_convertible ⟨0, false, false⟩ ⟨1, false, false⟩ = false) :=
  conversion_needs_array_convertible ⟨0, false, false⟩ ⟨0, true, false⟩
    ⟨some 100, 0, 5⟩ ⟨some 100, 5⟩ 0 1 false false false false (by decide)

/-- Witness for C9 at `v = (100, 10)`, `n = 3`, `first = 2`, `last = 7`. -/
theorem subrange_ops_contained_witness :
    (∃ w, (⟨some 100, 10⟩ : array_ref).take_front 3 = some w ∧
      subrange_of w ⟨some 100, 10⟩) ∧
    (∃ w, (⟨some 100, 10⟩ : array_ref).take_back 3 = some w ∧
      subrange_of w ⟨some 100, 10⟩) ∧
    (∃ w, (⟨some 100, 10⟩ : array_ref).drop_front 3 = some w ∧
      subrange_of w ⟨some 100, 10⟩) ∧
    (∃ w, (⟨some 100, 10⟩ : array_ref).drop_back 3 = some w ∧
      subrange_of w ⟨some 100, 10⟩) ∧
    (∃ w, (⟨some 100, 10⟩ : array_ref).subarray 2 7 = some w ∧
      subrange_of w ⟨some 100, 10⟩) ∧
    (∃ w, (⟨some 100, 10⟩ : array_ref).slice 2 3 = some w ∧
      subrange_of w ⟨some 100, 10⟩) :=
  subrange_ops_contained ⟨some 100, 10⟩ 3 2 7 (by decide) (by decide) (by decide)
    (by decide)

/-- Witness for C10 at `v = (100, 5)`, `n = -1`, `m = 2`. -/
theorem negative_count_asserts_witness :
    array_ref.Min (-1) (⟨some 100, 5⟩ : array_ref).size = -1 ∧
    (⟨some 100, 5⟩ : array_ref).take_front (-1) = none ∧
    (⟨some 100, 5⟩ : array_ref).take_back (-1) = none ∧
    (⟨some 100, 5⟩ : array_ref).drop_front (-1) = none ∧
    (⟨some 100, 5⟩ : array_ref).drop_back (-1) = none ∧
    ((⟨some 100, 5⟩ : array_ref).take_front 2).isSome = true ∧
    ((⟨some 100, 5⟩ : array_ref).take_back 2).isSome = true ∧
    ((⟨some 100, 5⟩ : array_ref).drop_front 2).isSome = true ∧
    ((⟨some 100, 5⟩ : array_ref).drop_back 2).isSome = true :=
  negative_count_asserts ⟨some 100, 5⟩ (-1) 2 (by decide) (by decide) (by decide)
    (by decide)

end cxx
